import Mathlib

/-!
Verification of the rust-rest-test sequential test-execution engine.

This file contains a shallow embedding of the core of `src/lib.rs`:
the HTTP method resolver (`validate_http_method`), the JSON capture logic
(`parse_json_response`), the request construction done in `fetch_url` /
`execute_tests` (body templating, bearer/session token injection,
Content-Type handling), the latency classification, and the sequential
suite-runner loop of `execute_tests` with its critical-failure
short-circuiting, carry-forward time boundaries and pass counting.

External collaborators (the `hyper` transport, `serde_json`'s parser) are
modelled as explicit parameters: `oracle` gives, per 1-based test index,
the transport outcome of the request (error/timeout vs. a response with a
status, elapsed time and body), and `parse` stands for
`serde_json::from_str`.  Machine integers (`u16`, `u32`, `u128`) are
modelled as `Nat`; none of the embedded operations can overflow them on
the values the program manipulates.  Rust's `HashMap` (used for the
variable store) is observed by the program only through `get` and
`insert`; it is modelled as an association list where insertion prepends,
which is observationally equal (same `lookup` results).
-/

namespace RustRestTest

/-- The `HttpMethod` enum of `src/lib.rs` (variants are lower-case,
`strum` derives `Display` as the variant name and `EnumIter` iterates in
declaration order). -/
inductive HttpMethod where
  | get
  | post
  | put
  | patch
  | delete
  | options
  | head
deriving DecidableEq, Repr

/-- `strum_macros::Display` output: the (lower-case) variant name. -/
def HttpMethod.toStr : HttpMethod → String
  | .get => "get"
  | .post => "post"
  | .put => "put"
  | .patch => "patch"
  | .delete => "delete"
  | .options => "options"
  | .head => "head"

/-- `HttpMethod::iter()` of `strum::EnumIter`: all variants in declaration
order. -/
def httpMethodIter : List HttpMethod :=
  [.get, .post, .put, .patch, .delete, .options, .head]

/-- Rust's `str::to_lowercase`, modelled as per-character lowercasing
(Rust's Unicode lowercasing agrees with this on every character of the
ASCII method names the resolver compares against). -/
def strToLower (s : String) : String := String.mk (s.data.map Char.toLower)

/-- `validate_http_method` of `src/lib.rs`:
`HttpMethod::iter().find(|m| m.to_string() == method.to_lowercase())`. -/
def validate_http_method (method : String) : Option HttpMethod :=
  httpMethodIter.find? (fun http_method => http_method.toStr == strToLower method)

/-- The `[u128; 3]` time-boundary triple: `[0]` is the green/yellow limit,
`[1]` the yellow/red limit, `[2]` the request timeout. -/
structure TimeBoundaries where
  low : Nat
  mid : Nat
  timeout : Nat
deriving DecidableEq, Repr

/-- The `Endpoint` struct of `src/lib.rs` (one declared test case).
`repeat`/`parallel` are renamed `repeat_count`/`parallel_count` because
`repeat` is a reserved token in Lean; they are unused by the engine. -/
structure Endpoint where
  it : Option String := none
  critical : Option Bool := none
  route : String := ""
  method : String := "get"
  status : Nat := 200
  json_body : Option (List (String × String)) := none
  time_boundaries : Option TimeBoundaries := none
  capture : Option (List (String × String)) := none
  bearer_token : Option String := none
  session_id : Option String := none
  auto_description : Option Bool := none
  verbose : Option Bool := none
  repeat_count : Option Nat := none
  parallel_count : Option Nat := none
deriving DecidableEq, Repr

/-- The `Config` struct of `src/lib.rs` (the parsed configuration file).
`to_file` is kept only as presence information (path contents are
irrelevant to the engine's logic). -/
structure Config where
  api_address : String := ""
  verbose : Option Bool := none
  tests : List Endpoint := []
  time_boundaries : Option TimeBoundaries := none
  caption_path : Option (List String) := none
  to_file : Option String := none
deriving DecidableEq, Repr

/-- The Variable Store (`captures: HashMap<String, String>`), observed only
through `get` and `insert`. -/
abbrev Store := List (String × String)

/-- `HashMap::insert` as observed through `get`: the new binding shadows
any previous binding of the same key. -/
def storeInsert (captures : Store) (key value : String) : Store :=
  (key, value) :: captures

/-- A JSON value (`serde_json::Value`).  Numbers are modelled as integers,
which covers every numeric literal the embedded claims touch. -/
inductive Json where
  | null
  | bool (b : Bool)
  | num (n : Int)
  | str (s : String)
  | arr (elems : List Json)
  | obj (fields : List (String × Json))

def Json.isNull : Json → Bool
  | .null => true
  | _ => false

/-- `serde_json`'s `Index<&str>` on `Value`: field lookup on objects,
`Null` for missing fields and non-objects. -/
def Json.getField : Json → String → Json
  | .obj fields, key =>
    match fields.lookup key with
    | some v => v
    | none => .null
  | _, _ => .null

def hexDigit (n : Nat) : Char :=
  if n < 10 then Char.ofNat (48 + n) else Char.ofNat (87 + n)

/-- `serde_json`'s string escaping for `Display` (compact) output. -/
def escapeJsonChar (c : Char) : String :=
  if c = '"' then "\\\""
  else if c = '\\' then "\\\\"
  else if c = '\x08' then "\\b"
  else if c = '\x09' then "\\t"
  else if c = '\x0a' then "\\n"
  else if c = '\x0c' then "\\f"
  else if c = '\x0d' then "\\r"
  else if c.toNat < 32 then "\\u00" ++ String.mk [hexDigit (c.toNat / 16), hexDigit (c.toNat % 16)]
  else String.mk [c]

def escapeJsonString (s : String) : String :=
  s.data.foldl (fun acc c => acc ++ escapeJsonChar c) ""

mutual

/-- `serde_json::Value::to_string()` (compact serialization). -/
def Json.toString : Json → String
  | .null => "null"
  | .bool true => "true"
  | .bool false => "false"
  | .num n => ToString.toString n
  | .str s => "\"" ++ escapeJsonString s ++ "\""
  | .arr elems => "[" ++ Json.toStringElems elems ++ "]"
  | .obj fields => "\x7b" ++ Json.toStringFields fields ++ "\x7d"

def Json.toStringElems : List Json → String
  | [] => ""
  | [x] => x.toString
  | x :: xs => x.toString ++ "," ++ Json.toStringElems xs

def Json.toStringFields : List (String × Json) → String
  | [] => ""
  | [kv] => "\"" ++ escapeJsonString kv.1 ++ "\":" ++ kv.2.toString
  | kv :: kvs => "\"" ++ escapeJsonString kv.1 ++ "\":" ++ kv.2.toString ++ "," ++ Json.toStringFields kvs

end

/-- The quote-stripping step of `parse_json_response` (`src/lib.rs`
lines 225-229): `string_captured.pop()` removes the last character
unconditionally, then `remove(0)` removes the first character when the
remainder is non-empty.  (The source comment says "Remove Double Quotes"
but nothing checks that the removed characters are quotes.) -/
def stripCaptured (s : String) : String :=
  let s1 := String.mk s.data.dropLast
  if s1.data.isEmpty then s1 else String.mk (s1.data.drop 1)

/-- The capture loop of `parse_json_response`: for each
`(capture_key, field_path)` pair, skip (with a console warning) when
`json_body[field_path]` is `Null`, otherwise store the stripped
stringification under `capture_key`. -/
def capture_values (json_body : Json) (capture : List (String × String)) (captures : Store) : Store :=
  capture.foldl
    (fun acc kv =>
      if (json_body.getField kv.2).isNull then acc
      else storeInsert acc kv.1 (stripCaptured (json_body.getField kv.2).toString))
    captures

/-- Result of `parse_json_response`: the (possibly updated) variable
store, whether a JSON parse was attempted at all, and whether the parse
attempt failed (which is logged and skips all captures). -/
structure ParseOutcome where
  captures : Store
  attempted : Bool
  parseFailed : Bool
deriving DecidableEq, Repr

/-- `parse_json_response` of `src/lib.rs`: parsing is gated on the buffer
being non-empty with first byte `b'{'`; a parse failure is logged and
skips captures; otherwise the capture loop runs (when the test declares
captures). `parse` stands for `serde_json::from_str`. -/
def parse_json_response (parse : String → Except String Json) (response_buffer : String)
    (captures : Store) (test : Endpoint) : ParseOutcome :=
  if response_buffer ≠ "" ∧ response_buffer.front = '{' then
    match parse response_buffer with
    | Except.error _ => ⟨captures, true, true⟩
    | Except.ok json_body =>
      match test.capture with
      | some capture => ⟨capture_values json_body capture captures, true, false⟩
      | none => ⟨captures, true, false⟩
  else ⟨captures, false, false⟩

/-- One of the `"{key}":"{value}",`-style fragments appended by the body
construction loop of `execute_tests` (lines 443-448). -/
def quotePair (kv : String × String) : String :=
  "\"" ++ kv.1 ++ "\":\"" ++ kv.2 ++ "\""

/-- `body.ends_with(',')` as the source uses it. -/
def ends_with_comma (s : String) : Bool := s.data.getLast? == some ','

/-- `body.pop()`. -/
def strPop (s : String) : String := String.mk s.data.dropLast

/-- The request-body construction of `execute_tests` (lines 441-457):
start from `"{"` and append `"key":"value",` fragments when `json_body`
is present (else the body is set to `""`), drop a trailing comma, and
close with `"}"` only when the body is non-empty. -/
def buildBody (json_body : Option (List (String × String))) : String :=
  let body :=
    match json_body with
    | some value_map => value_map.foldl (fun b kv => b ++ (quotePair kv ++ ",")) "\x7b"
    | none => ""
  let body := if ends_with_comma body then strPop body else body
  if body.length > 0 then body ++ "\x7d" else body

/-- The outbound request as assembled by `execute_tests` + `fetch_url`:
URL, canonical method, the timeout actually raced against the request,
the body, and the three conditionally-set headers. -/
structure RequestRecord where
  method : HttpMethod
  url : String
  timeout : Nat
  body : String
  authorization : Option String
  cookie : Option String
  contentType : Bool
deriving DecidableEq, Repr

/-- `fetch_url` header composition (lines 283-319): `Authorization:
Bearer <token>` when a bearer token was resolved, `Cookie:
connect.sid=<token>` when a session id was resolved, `Content-Type:
application/json` exactly when the body is non-empty. -/
def fetch_url_request (method : HttpMethod) (url : String) (timeout : Nat) (body : String)
    (bearer_token session_id : Option String) : RequestRecord :=
  { method := method
    url := url
    timeout := timeout
    body := body
    authorization := bearer_token.map (fun token => "Bearer " ++ token)
    cookie := session_id.map (fun token => "connect.sid=" ++ token)
    contentType := decide (body.length > 0) }

inductive Latency where
  | green
  | yellow
  | red
deriving DecidableEq, Repr

/-- The latency classification of `execute_tests` (lines 499-508). -/
def classify (response_time : Nat) (tb : TimeBoundaries) : Latency :=
  if response_time < tb.low then .green
  else if response_time < tb.mid then .yellow
  else .red

/-- Transport outcome of one request, as produced by
`fetch_url`/`create_and_send_request`: `err` covers both the timeout and
connection-failure paths, `ok` carries the response status, the measured
elapsed time and the fully drained body. -/
inductive TransportResult where
  | err
  | ok (status : Nat) (response_time : Nat) (body : String)
deriving DecidableEq, Repr

inductive TestOutcome where
  | passed
  | failed
  | transportError
deriving DecidableEq, Repr

/-- Observable trace entry for one executed test: 1-based index, the test
case, the effective time boundaries, the variable store at loop entry,
the request that was sent, and the outcome. -/
structure TestRecord where
  index : Nat
  test : Endpoint
  boundaries : TimeBoundaries
  storeBefore : Store
  request : RequestRecord
  outcome : TestOutcome
  classification : Option Latency
deriving DecidableEq, Repr

/-- The mutable loop state of `execute_tests`: the running time-boundary
default, the variable store, and the pass counter. -/
structure StepState where
  time_boundaries : TimeBoundaries
  captures : Store
  tests_passed : Nat
deriving DecidableEq, Repr

/-- How the suite run ends: the loop completed, a critical test failed
(`return` at lines 487/522), or `panic!` on an unknown method (line 433). -/
inductive RunTermination where
  | completed
  | abortedCritical (i : Nat)
  | panickedMethod (i : Nat)
deriving DecidableEq, Repr

inductive StepOutcome where
  | panic (st : StepState)
  | abort (record : TestRecord) (st : StepState)
  | next (record : TestRecord) (st : StepState)
deriving DecidableEq, Repr

/-- `test.time_boundaries` overriding the running default (lines 402-406);
this happens at loop entry, before the request is built. -/
def effectiveBoundaries (test : Endpoint) (st : StepState) : TimeBoundaries :=
  test.time_boundaries.getD st.time_boundaries

/-- Request assembly for one test (lines 436-476): URL concatenation,
body construction, and token resolution
`captures.get(&test.bearer_token.clone().unwrap_or_default())` (note the
empty-string default key when the test declares no token variable). -/
def buildRequest (api_address : String) (test : Endpoint) (method : HttpMethod)
    (st : StepState) : RequestRecord :=
  fetch_url_request method (api_address ++ test.route) (effectiveBoundaries test st).timeout
    (buildBody test.json_body)
    (st.captures.lookup (test.bearer_token.getD ""))
    (st.captures.lookup (test.session_id.getD ""))

/-- One iteration of the `execute_tests` loop for the test at (1-based)
position `test_index`.  Mirrors the source control flow: update the
running time boundaries, validate the method (`panic!` on failure), build
and send the request; on transport error, abort if critical else continue
without touching store or counter; on a response, run
`parse_json_response`, classify latency, then compare the status —
increment the counter on a match, abort if critical on a mismatch. -/
def runStep (parse : String → Except String Json) (oracle : Nat → TransportResult)
    (api_address : String) (test : Endpoint) (test_index : Nat) (st : StepState) : StepOutcome :=
  match validate_http_method test.method with
  | none => .panic ⟨effectiveBoundaries test st, st.captures, st.tests_passed⟩
  | some method =>
    match oracle test_index with
    | .err =>
      let record : TestRecord :=
        ⟨test_index, test, effectiveBoundaries test st, st.captures,
          buildRequest api_address test method st, .transportError, none⟩
      if test.critical.getD false then
        .abort record ⟨effectiveBoundaries test st, st.captures, st.tests_passed⟩
      else
        .next record ⟨effectiveBoundaries test st, st.captures, st.tests_passed⟩
    | .ok response_status response_time response_body =>
      let record : TestRecord :=
        ⟨test_index, test, effectiveBoundaries test st, st.captures,
          buildRequest api_address test method st,
          if response_status = test.status then .passed else .failed,
          some (classify response_time (effectiveBoundaries test st))⟩
      let st1 : StepState :=
        ⟨effectiveBoundaries test st,
          (parse_json_response parse response_body st.captures test).captures,
          if response_status = test.status then st.tests_passed + 1 else st.tests_passed⟩
      if response_status = test.status then .next record st1
      else if test.critical.getD false then .abort record st1
      else .next record st1

structure LoopResult where
  records : List TestRecord
  finalState : StepState
  term : RunTermination
deriving DecidableEq, Repr

/-- The `for test in rest_test_config.tests.iter()` loop of
`execute_tests`, from position `test_index` (1-based) in state `st`. -/
def runFrom (parse : String → Except String Json) (oracle : Nat → TransportResult)
    (api_address : String) : List Endpoint → Nat → StepState → LoopResult
  | [], _, st => ⟨[], st, .completed⟩
  | test :: rest, test_index, st =>
    match runStep parse oracle api_address test test_index st with
    | .panic st1 => ⟨[], st1, .panickedMethod test_index⟩
    | .abort record st1 => ⟨[record], st1, .abortedCritical test_index⟩
    | .next record st1 =>
      let r := runFrom parse oracle api_address rest (test_index + 1) st1
      ⟨record :: r.records, r.finalState, r.term⟩

/-- Observable result of a whole suite run.  `finalReport` is the
`"{n} out of {total} tests passed."` line (line 530), which is only
reached when the loop completes: both `return` statements and the
`panic!` skip it. -/
structure RunOutput where
  records : List TestRecord
  tests_passed : Nat
  captures : Store
  term : RunTermination
  finalReport : Option (Nat × Nat)
deriving DecidableEq, Repr

/-- `execute_tests` of `src/lib.rs` (minus file I/O): `test_count` is
fixed up front as `tests.len()` (line 380), the default time boundaries
are `[500, 1000, 10000]` (line 385), the store starts empty, and the
final report is printed only on loop completion. -/
def execute_tests (parse : String → Except String Json) (oracle : Nat → TransportResult)
    (rest_test_config : Config) : RunOutput :=
  let test_count := rest_test_config.tests.length
  let time_boundaries := rest_test_config.time_boundaries.getD ⟨500, 1000, 10000⟩
  let result := runFrom parse oracle rest_test_config.api_address rest_test_config.tests 1
    ⟨time_boundaries, [], 0⟩
  { records := result.records
    tests_passed := result.finalState.tests_passed
    captures := result.finalState.captures
    term := result.term
    finalReport :=
      match result.term with
      | .completed => some (result.finalState.tests_passed, test_count)
      | _ => none }

/-! ### String-level helper lemmas -/

theorem str_data_append (a b : String) : (a ++ b).data = a.data ++ b.data := rfl

theorem str_mk_data (l : List Char) : (String.mk l).data = l := rfl

theorem comma_data : ("," : String).data = [','] := rfl

theorem str_append_assoc (a b c : String) : a ++ b ++ c = a ++ (b ++ c) :=
  String.ext (by simp [str_data_append])

theorem ends_with_comma_concat (s : String) : ends_with_comma (s ++ ",") = true := by
  simp [ends_with_comma, str_data_append, comma_data, List.getLast?_concat]

theorem strPop_concat (s : String) : strPop (s ++ ",") = s :=
  String.ext (by simp [strPop, str_mk_data, str_data_append, comma_data, List.dropLast_concat])

theorem str_length_data (s : String) : s.length = s.data.length := rfl

/-! ### The spec-side body serializer and `buildBody` correctness -/

def joinComma : List String → String
  | [] => ""
  | [x] => x
  | x :: y :: xs => x ++ ("," ++ joinComma (y :: xs))

/-- Following the spec's words: the request body is the serialization of
"a single flat JSON object of string→string pairs", the empty map
serializing to `"{}"`. -/
def spec_flat_json_object (pairs : List (String × String)) : String :=
  "\x7b" ++ (joinComma (pairs.map quotePair) ++ "\x7d")

theorem foldl_quotePair (x : String × String) (xs : List (String × String)) :
    ∀ p : String,
      ((x :: xs).foldl (fun b kv => b ++ (quotePair kv ++ ",")) p)
        = p ++ (joinComma ((x :: xs).map quotePair) ++ ",") := by
  induction xs generalizing x with
  | nil => intro p; simp [joinComma]
  | cons y ys ih =>
    intro p
    rw [List.foldl_cons, ih y]
    simp [joinComma, str_append_assoc]

theorem buildBody_none : buildBody none = "" := rfl

theorem buildBody_some (m : List (String × String)) :
    buildBody (some m) = spec_flat_json_object m := by
  cases m with
  | nil => rfl
  | cons x xs =>
    show (let body := (x :: xs).foldl (fun b kv => b ++ (quotePair kv ++ ",")) "\x7b"
          let body := if ends_with_comma body then strPop body else body
          if body.length > 0 then body ++ "\x7d" else body) = _
    rw [foldl_quotePair, ← str_append_assoc]
    simp only [ends_with_comma_concat, if_true, strPop_concat]
    rw [if_pos]
    · exact str_append_assoc _ _ _
    · show 0 < ("\x7b" ++ joinComma (List.map quotePair (x :: xs))).length
      have hd : ("\x7b" ++ joinComma (List.map quotePair (x :: xs))).data
          = '{' :: (joinComma (List.map quotePair (x :: xs))).data := rfl
      rw [str_length_data, hd, List.length_cons]
      exact Nat.succ_pos _

/-! ### Facts about one loop iteration -/

/-- The facts established for every test that produced a trace record:
record fields mirror the loop state at entry, the request is the one
`fetch_url` builds from that state, and the outcome/classification are
determined by the transport result. -/
def stepRecordFacts (oracle : Nat → TransportResult) (api : String) (test : Endpoint)
    (idx : Nat) (st : StepState) (rec : TestRecord) (st1 : StepState) : Prop :=
  rec.index = idx ∧
  rec.test = test ∧
  rec.boundaries = effectiveBoundaries test st ∧
  rec.storeBefore = st.captures ∧
  st1.time_boundaries = effectiveBoundaries test st ∧
  (∃ m, validate_http_method test.method = some m ∧ rec.request = buildRequest api test m st) ∧
  st1.tests_passed = st.tests_passed + (if rec.outcome = TestOutcome.passed then 1 else 0) ∧
  (oracle idx = TransportResult.err → rec.outcome = TestOutcome.transportError) ∧
  (∀ s t b, oracle idx = TransportResult.ok s t b →
    (rec.outcome = if s = test.status then TestOutcome.passed else TestOutcome.failed) ∧
    rec.classification = some (classify t (effectiveBoundaries test st)))

theorem runStep_panic_facts (parse : String → Except String Json) (oracle : Nat → TransportResult)
    (api : String) (test : Endpoint) (idx : Nat) (st st1 : StepState)
    (h : runStep parse oracle api test idx st = StepOutcome.panic st1) :
    validate_http_method test.method = none ∧ st1.tests_passed = st.tests_passed := by
  unfold runStep at h
  split at h
  next hv =>
    injection h with h1
    subst h1
    exact ⟨hv, rfl⟩
  next m hv =>
    split at h
    next ho =>
      split at h
      next hc => cases h
      next hc => cases h
    next s t b ho =>
      split at h
      next hs => cases h
      next hs =>
        split at h
        next hc => cases h
        next hc => cases h

theorem runStep_abort_facts (parse : String → Except String Json) (oracle : Nat → TransportResult)
    (api : String) (test : Endpoint) (idx : Nat) (st : StepState) (rec : TestRecord)
    (st1 : StepState)
    (h : runStep parse oracle api test idx st = StepOutcome.abort rec st1) :
    stepRecordFacts oracle api test idx st rec st1 ∧
    rec.outcome ≠ TestOutcome.passed ∧ test.critical.getD false = true := by
  unfold runStep at h
  split at h
  next hv => cases h
  next m hv =>
    split at h
    next ho =>
      split at h
      next hc =>
        injection h with h1 h2
        subst h1
        subst h2
        refine ⟨⟨rfl, rfl, rfl, rfl, rfl, ⟨m, hv, rfl⟩, by simp, fun _ => rfl, ?_⟩, by simp, hc⟩
        intro s t b hob
        rw [ho] at hob
        exact TransportResult.noConfusion hob
      next hc => cases h
    next s t b ho =>
      split at h
      next hs => cases h
      next hs =>
        split at h
        next hc =>
          injection h with h1 h2
          subst h1
          subst h2
          refine ⟨⟨rfl, rfl, rfl, rfl, rfl, ⟨m, hv, rfl⟩, by simp [hs], ?_, ?_⟩, by simp [hs], hc⟩
          · intro hoe
            rw [ho] at hoe
            exact TransportResult.noConfusion hoe
          · intro s' t' b' hob
            rw [ho] at hob
            injection hob with e1 e2 e3
            subst e1
            subst e2
            subst e3
            exact ⟨by simp [hs], rfl⟩
        next hc => cases h

theorem runStep_next_facts (parse : String → Except String Json) (oracle : Nat → TransportResult)
    (api : String) (test : Endpoint) (idx : Nat) (st : StepState) (rec : TestRecord)
    (st1 : StepState)
    (h : runStep parse oracle api test idx st = StepOutcome.next rec st1) :
    stepRecordFacts oracle api test idx st rec st1 ∧
    (rec.outcome = TestOutcome.passed ∨ test.critical.getD false = false) := by
  unfold runStep at h
  split at h
  next hv => cases h
  next m hv =>
    split at h
    next ho =>
      split at h
      next hc => cases h
      next hc =>
        injection h with h1 h2
        subst h1
        subst h2
        refine ⟨⟨rfl, rfl, rfl, rfl, rfl, ⟨m, hv, rfl⟩, by simp, fun _ => rfl, ?_⟩,
          Or.inr (by simpa using hc)⟩
        intro s t b hob
        rw [ho] at hob
        exact TransportResult.noConfusion hob
    next s t b ho =>
      split at h
      next hs =>
        injection h with h1 h2
        subst h1
        subst h2
        refine ⟨⟨rfl, rfl, rfl, rfl, rfl, ⟨m, hv, rfl⟩, by simp [hs], ?_, ?_⟩,
          Or.inl (by simp [hs])⟩
        · intro hoe
          rw [ho] at hoe
          exact TransportResult.noConfusion hoe
        · intro s' t' b' hob
          rw [ho] at hob
          injection hob with e1 e2 e3
          subst e1
          subst e2
          subst e3
          exact ⟨by simp [hs], rfl⟩
      next hs =>
        split at h
        next hc => cases h
        next hc =>
          injection h with h1 h2
          subst h1
          subst h2
          refine ⟨⟨rfl, rfl, rfl, rfl, rfl, ⟨m, hv, rfl⟩, by simp [hs], ?_, ?_⟩,
            Or.inr (by simpa using hc)⟩
          · intro hoe
            rw [ho] at hoe
            exact TransportResult.noConfusion hoe
          · intro s' t' b' hob
            rw [ho] at hob
            injection hob with e1 e2 e3
            subst e1
            subst e2
            subst e3
            exact ⟨by simp [hs], rfl⟩

/-! ### Invariants of the suite-runner loop -/

theorem runFrom_mem_index (parse : String → Except String Json) (oracle : Nat → TransportResult)
    (api : String) :
    ∀ (tests : List Endpoint) (idx : Nat) (st : StepState),
      ∀ r ∈ (runFrom parse oracle api tests idx st).records, idx ≤ r.index := by
  intro tests
  induction tests with
  | nil => intro idx st r hr; simp [runFrom] at hr
  | cons test rest ih =>
    intro idx st r hr
    cases hstep : runStep parse oracle api test idx st with
    | panic st1 => simp [runFrom, hstep] at hr
    | abort rec st1 =>
      simp only [runFrom, hstep] at hr
      have hf := (runStep_abort_facts _ _ _ _ _ _ _ _ hstep).1
      simp [List.mem_singleton.mp hr, hf.1]
    | next rec st1 =>
      simp only [runFrom, hstep] at hr
      have hf := (runStep_next_facts _ _ _ _ _ _ _ _ hstep).1
      rcases List.mem_cons.mp hr with h | h
      · simp [h, hf.1]
      · exact Nat.le_trans (Nat.le_succ idx) (ih (idx + 1) st1 r h)

theorem runFrom_passed_count (parse : String → Except String Json) (oracle : Nat → TransportResult)
    (api : String) :
    ∀ (tests : List Endpoint) (idx : Nat) (st : StepState),
      (runFrom parse oracle api tests idx st).finalState.tests_passed =
        st.tests_passed +
          (runFrom parse oracle api tests idx st).records.countP
            (fun r => decide (r.outcome = TestOutcome.passed)) := by
  intro tests
  induction tests with
  | nil => intro idx st; simp [runFrom]
  | cons test rest ih =>
    intro idx st
    cases hstep : runStep parse oracle api test idx st with
    | panic st1 =>
      have hf := runStep_panic_facts _ _ _ _ _ _ _ hstep
      simp [runFrom, hstep, hf.2]
    | abort rec st1 =>
      have hf := runStep_abort_facts _ _ _ _ _ _ _ _ hstep
      have hp := hf.1.2.2.2.2.2.2.1
      have hno := hf.2.1
      simp [runFrom, hstep, List.countP_cons, hp, hno]
    | next rec st1 =>
      have hf := (runStep_next_facts _ _ _ _ _ _ _ _ hstep).1
      have hp := hf.2.2.2.2.2.2.1
      by_cases hrp : rec.outcome = TestOutcome.passed <;>
        simp [runFrom, hstep, List.countP_cons, hp, hrp, ih (idx + 1) st1]
      omega

theorem runFrom_critical_last (parse : String → Except String Json)
    (oracle : Nat → TransportResult) (api : String) :
    ∀ (tests : List Endpoint) (idx : Nat) (st : StepState) (r : TestRecord),
      r ∈ (runFrom parse oracle api tests idx st).records →
      r.test.critical.getD false = true →
      r.outcome ≠ TestOutcome.passed →
      ∀ r' ∈ (runFrom parse oracle api tests idx st).records, r'.index ≤ r.index := by
  intro tests
  induction tests with
  | nil => intro idx st r hr; simp [runFrom] at hr
  | cons test rest ih =>
    intro idx st r hr hcrit hfail r' hr'
    cases hstep : runStep parse oracle api test idx st with
    | panic st1 => simp [runFrom, hstep] at hr
    | abort rec st1 =>
      simp only [runFrom, hstep] at hr hr'
      simp [List.mem_singleton.mp hr, List.mem_singleton.mp hr']
    | next rec st1 =>
      simp only [runFrom, hstep] at hr hr'
      have hf := runStep_next_facts _ _ _ _ _ _ _ _ hstep
      rcases List.mem_cons.mp hr with h | h
      · subst h
        rcases hf.2 with hpass | hncrit
        · exact absurd hpass hfail
        · rw [hf.1.2.1] at hcrit
          rw [hncrit] at hcrit
          exact absurd hcrit (by simp)
      · rcases List.mem_cons.mp hr' with h' | h'
        · have hidx := runFrom_mem_index parse oracle api rest (idx + 1) st1 r h
          rw [h', hf.1.1]
          omega
        · exact ih (idx + 1) st1 r h hcrit hfail r' h'

theorem runFrom_completed_length (parse : String → Except String Json)
    (oracle : Nat → TransportResult) (api : String) :
    ∀ (tests : List Endpoint) (idx : Nat) (st : StepState),
      (runFrom parse oracle api tests idx st).term = RunTermination.completed →
      (runFrom parse oracle api tests idx st).records.length = tests.length := by
  intro tests
  induction tests with
  | nil => intro idx st _; simp [runFrom]
  | cons test rest ih =>
    intro idx st h
    cases hstep : runStep parse oracle api test idx st with
    | panic st1 => simp [runFrom, hstep] at h
    | abort rec st1 => simp [runFrom, hstep] at h
    | next rec st1 =>
      simp only [runFrom, hstep] at h ⊢
      simp [ih (idx + 1) st1 h]

theorem runFrom_panicked (parse : String → Except String Json)
    (oracle : Nat → TransportResult) (api : String) :
    ∀ (tests : List Endpoint) (idx : Nat) (st : StepState) (i : Nat),
      (runFrom parse oracle api tests idx st).term = RunTermination.panickedMethod i →
      idx ≤ i ∧
      (∃ t, tests[i - idx]? = some t ∧ validate_http_method t.method = none) ∧
      ∀ r ∈ (runFrom parse oracle api tests idx st).records, r.index < i := by
  intro tests
  induction tests with
  | nil => intro idx st i h; simp [runFrom] at h
  | cons test rest ih =>
    intro idx st i h
    cases hstep : runStep parse oracle api test idx st with
    | panic st1 =>
      simp only [runFrom, hstep] at h ⊢
      injection h with hi
      subst hi
      have hv := (runStep_panic_facts _ _ _ _ _ _ _ hstep).1
      refine ⟨Nat.le_refl idx, ⟨test, ?_, hv⟩, ?_⟩
      · simp
      · intro r hr
        simp at hr
    | abort rec st1 => simp [runFrom, hstep] at h
    | next rec st1 =>
      simp only [runFrom, hstep] at h ⊢
      obtain ⟨hle, ⟨t, hget, hvt⟩, hmem⟩ := ih (idx + 1) st1 i h
      have hf := (runStep_next_facts _ _ _ _ _ _ _ _ hstep).1
      refine ⟨by omega, ⟨t, ?_, hvt⟩, ?_⟩
      · have hsub : i - idx = (i - (idx + 1)) + 1 := by omega
        rw [hsub]
        simpa using hget
      · intro r hr
        rcases List.mem_cons.mp hr with h' | h'
        · rw [h', hf.1]
          omega
        · exact hmem r h'

theorem stepRecordFacts_self (oracle : Nat → TransportResult) (api : String) (test : Endpoint)
    (idx : Nat) (st : StepState) (rec : TestRecord) (st1 : StepState)
    (hf : stepRecordFacts oracle api test idx st rec st1) :
    (∃ m, validate_http_method rec.test.method = some m ∧
      rec.request = fetch_url_request m (api ++ rec.test.route) rec.boundaries.timeout
        (buildBody rec.test.json_body)
        (rec.storeBefore.lookup (rec.test.bearer_token.getD ""))
        (rec.storeBefore.lookup (rec.test.session_id.getD ""))) ∧
    (oracle rec.index = TransportResult.err → rec.outcome = TestOutcome.transportError) ∧
    (∀ s t b, oracle rec.index = TransportResult.ok s t b →
      (rec.outcome = if s = rec.test.status then TestOutcome.passed else TestOutcome.failed) ∧
      rec.classification = some (classify t rec.boundaries)) := by
  obtain ⟨hidx, htest, hbound, hstore, hst1, ⟨m, hm, hreq⟩, hp, herr, hok⟩ := hf
  refine ⟨⟨m, ?_, ?_⟩, ?_, ?_⟩
  · rw [htest]
    exact hm
  · rw [htest, hbound, hstore]
    exact hreq
  · rw [hidx]
    exact herr
  · rw [hidx, htest, hbound]
    exact hok

theorem runFrom_record_facts (parse : String → Except String Json)
    (oracle : Nat → TransportResult) (api : String) :
    ∀ (tests : List Endpoint) (idx : Nat) (st : StepState) (k : Nat) (r : TestRecord),
      (runFrom parse oracle api tests idx st).records[k]? = some r →
      r.index = idx + k ∧
      (∃ m, validate_http_method r.test.method = some m ∧
        r.request = fetch_url_request m (api ++ r.test.route) r.boundaries.timeout
          (buildBody r.test.json_body)
          (r.storeBefore.lookup (r.test.bearer_token.getD ""))
          (r.storeBefore.lookup (r.test.session_id.getD ""))) ∧
      (oracle r.index = TransportResult.err → r.outcome = TestOutcome.transportError) ∧
      (∀ s t b, oracle r.index = TransportResult.ok s t b →
        (r.outcome = if s = r.test.status then TestOutcome.passed else TestOutcome.failed) ∧
        r.classification = some (classify t r.boundaries)) := by
  intro tests
  induction tests with
  | nil => intro idx st k r h; simp [runFrom] at h
  | cons test rest ih =>
    intro idx st k r h
    cases hstep : runStep parse oracle api test idx st with
    | panic st1 => simp [runFrom, hstep] at h
    | abort rec st1 =>
      simp only [runFrom, hstep] at h
      cases k with
      | zero =>
        simp only [List.getElem?_cons_zero, Option.some.injEq] at h
        subst h
        have hf := (runStep_abort_facts _ _ _ _ _ _ _ _ hstep).1
        exact ⟨by simp [hf.1], stepRecordFacts_self oracle api test idx st _ _ hf⟩
      | succ k => simp at h
    | next rec st1 =>
      simp only [runFrom, hstep] at h
      cases k with
      | zero =>
        simp only [List.getElem?_cons_zero, Option.some.injEq] at h
        subst h
        have hf := (runStep_next_facts _ _ _ _ _ _ _ _ hstep).1
        exact ⟨by simp [hf.1], stepRecordFacts_self oracle api test idx st _ _ hf⟩
      | succ k =>
        simp only [List.getElem?_cons_succ] at h
        obtain ⟨h1, h2⟩ := ih (idx + 1) st1 k r h
        exact ⟨by omega, h2⟩

/-- The carry-forward effective time boundaries, as the spec words them:
`effective_time_boundaries = test.time_boundaries ?? running_default`, the
override becoming the new running default for subsequent tests. -/
def spec_effective_time_boundaries (d : TimeBoundaries) : List Endpoint → List TimeBoundaries
  | [] => []
  | test :: rest =>
    test.time_boundaries.getD d :: spec_effective_time_boundaries (test.time_boundaries.getD d) rest

theorem runFrom_boundaries (parse : String → Except String Json)
    (oracle : Nat → TransportResult) (api : String) :
    ∀ (tests : List Endpoint) (idx : Nat) (st : StepState) (k : Nat) (r : TestRecord),
      (runFrom parse oracle api tests idx st).records[k]? = some r →
      (spec_effective_time_boundaries st.time_boundaries tests)[k]? = some r.boundaries := by
  intro tests
  induction tests with
  | nil => intro idx st k r h; simp [runFrom] at h
  | cons test rest ih =>
    intro idx st k r h
    cases hstep : runStep parse oracle api test idx st with
    | panic st1 => simp [runFrom, hstep] at h
    | abort rec st1 =>
      simp only [runFrom, hstep] at h
      cases k with
      | zero =>
        simp only [List.getElem?_cons_zero, Option.some.injEq] at h
        subst h
        have hf := (runStep_abort_facts _ _ _ _ _ _ _ _ hstep).1
        simp [spec_effective_time_boundaries, hf.2.2.1, effectiveBoundaries]
      | succ k => simp at h
    | next rec st1 =>
      simp only [runFrom, hstep] at h
      have hf := (runStep_next_facts _ _ _ _ _ _ _ _ hstep).1
      cases k with
      | zero =>
        simp only [List.getElem?_cons_zero, Option.some.injEq] at h
        subst h
        simp [spec_effective_time_boundaries, hf.2.2.1, effectiveBoundaries]
      | succ k =>
        simp only [List.getElem?_cons_succ] at h
        have hrec := ih (idx + 1) st1 k r h
        have hst1 : st1.time_boundaries = effectiveBoundaries test st := hf.2.2.2.2.1
        rw [hst1] at hrec
        simpa [spec_effective_time_boundaries, effectiveBoundaries] using hrec

/-! ### Unfolding `execute_tests` to the loop -/

theorem execute_tests_records (parse : String → Except String Json)
    (oracle : Nat → TransportResult) (cfg : Config) :
    (execute_tests parse oracle cfg).records =
      (runFrom parse oracle cfg.api_address cfg.tests 1
        ⟨cfg.time_boundaries.getD ⟨500, 1000, 10000⟩, [], 0⟩).records := rfl

theorem execute_tests_passed (parse : String → Except String Json)
    (oracle : Nat → TransportResult) (cfg : Config) :
    (execute_tests parse oracle cfg).tests_passed =
      (runFrom parse oracle cfg.api_address cfg.tests 1
        ⟨cfg.time_boundaries.getD ⟨500, 1000, 10000⟩, [], 0⟩).finalState.tests_passed := rfl

theorem execute_tests_term (parse : String → Except String Json)
    (oracle : Nat → TransportResult) (cfg : Config) :
    (execute_tests parse oracle cfg).term =
      (runFrom parse oracle cfg.api_address cfg.tests 1
        ⟨cfg.time_boundaries.getD ⟨500, 1000, 10000⟩, [], 0⟩).term := rfl

theorem execute_tests_finalReport_match (parse : String → Except String Json)
    (oracle : Nat → TransportResult) (cfg : Config) :
    (execute_tests parse oracle cfg).finalReport =
      (match (execute_tests parse oracle cfg).term with
        | RunTermination.completed =>
          some ((execute_tests parse oracle cfg).tests_passed, cfg.tests.length)
        | _ => none) := rfl

theorem execute_tests_finalReport_completed (parse : String → Except String Json)
    (oracle : Nat → TransportResult) (cfg : Config)
    (h : (execute_tests parse oracle cfg).term = RunTermination.completed) :
    (execute_tests parse oracle cfg).finalReport =
      some ((execute_tests parse oracle cfg).tests_passed, cfg.tests.length) := by
  have hrw := execute_tests_finalReport_match parse oracle cfg
  rw [h] at hrw
  exact hrw

theorem execute_tests_finalReport_not_completed (parse : String → Except String Json)
    (oracle : Nat → TransportResult) (cfg : Config)
    (h : (execute_tests parse oracle cfg).term ≠ RunTermination.completed) :
    (execute_tests parse oracle cfg).finalReport = none := by
  have hrw := execute_tests_finalReport_match parse oracle cfg
  cases hterm : (execute_tests parse oracle cfg).term with
  | completed => exact absurd hterm h
  | abortedCritical i => rw [hterm] at hrw; exact hrw
  | panickedMethod i => rw [hterm] at hrw; exact hrw

theorem str_length_pos_iff (s : String) : 0 < s.length ↔ s ≠ "" := by
  rw [str_length_data]
  constructor
  · intro h he
    subst he
    simp at h
  · intro h
    cases hd : s.data with
    | nil => exact absurd (String.ext (by rw [hd])) h
    | cons c cs => simp [hd]

/-! ### Concrete scenarios used by the claim theorems and witnesses -/

def parseNone : String → Except String Json := fun _ => Except.error "invalid"

def parseDemo : String → Except String Json := fun s =>
  if s = "\x7b\"id\":\"x1\"\x7d" then Except.ok (Json.obj [("id", Json.str "x1")])
  else Except.error "invalid"

def oracleDemo : Nat → TransportResult := fun i =>
  if i = 1 then TransportResult.ok 200 50 "\x7b\"id\":\"x1\"\x7d"
  else if i = 2 then TransportResult.ok 201 150 ""
  else TransportResult.ok 200 250 "ok"

def oracleErr : Nat → TransportResult := fun _ => TransportResult.err

def oracleOk200 : Nat → TransportResult := fun _ => TransportResult.ok 200 10 ""

def cfgDemo : Config :=
  { api_address := "https://api"
    tests :=
      [ { route := "/login", method := "GET", status := 200, capture := some [("uid", "id")] }
      , { route := "/users", method := "post", status := 201, bearer_token := some "uid"
        , json_body := some [("a", "b")], time_boundaries := some ⟨100, 200, 300⟩ }
      , { route := "/x", method := "get", status := 200, session_id := some "uid" } ] }

def cfgC2 : Config :=
  { api_address := "http://a"
    tests :=
      [ { route := "/one", method := "get", status := 200, critical := some true }
      , { route := "/two", method := "get", status := 200 } ] }

def cfgC8 : Config :=
  { api_address := "http://a"
    tests :=
      [ { route := "/one", method := "get", status := 200 }
      , { route := "/two", method := "FOOBAR", status := 200 }
      , { route := "/three", method := "get", status := 200 } ] }

def cfgC10 : Config :=
  { api_address := "http://a"
    tests :=
      [ { route := "/login", method := "get", status := 200, capture := some [("", "id")] }
      , { route := "/two", method := "get", status := 200 } ] }

def recC2 : TestRecord :=
  ⟨1, { route := "/one", method := "get", status := 200, critical := some true },
    ⟨500, 1000, 10000⟩, [],
    ⟨HttpMethod.get, "http://a/one", 10000, "", none, none, false⟩,
    TestOutcome.transportError, none⟩

def recC10 : TestRecord :=
  ⟨2, { route := "/two", method := "get", status := 200 },
    ⟨500, 1000, 10000⟩, [("", "x1")],
    ⟨HttpMethod.get, "http://a/two", 10000, "", some "Bearer x1", some "connect.sid=x1", false⟩,
    TestOutcome.failed, some Latency.green⟩

def recDemo2 : TestRecord :=
  ⟨2, { route := "/users", method := "post", status := 201, json_body := some [("a", "b")],
        time_boundaries := some ⟨100, 200, 300⟩, bearer_token := some "uid" },
    ⟨100, 200, 300⟩, [("uid", "x1")],
    ⟨HttpMethod.post, "https://api/users", 300, "\x7b\"a\":\"b\"\x7d",
      some "Bearer x1", none, true⟩,
    TestOutcome.passed, some Latency.yellow⟩

def recDemo3 : TestRecord :=
  ⟨3, { route := "/x", method := "get", status := 200, session_id := some "uid" },
    ⟨100, 200, 300⟩, [("uid", "x1")],
    ⟨HttpMethod.get, "https://api/x", 300, "", none, some "connect.sid=x1", false⟩,
    TestOutcome.passed, some Latency.red⟩

def endpointC1 : Endpoint := { capture := some [("k", "n")] }

def endpointC1str : Endpoint := { capture := some [("sess", "token")] }

def parseC1 : String → Except String Json := fun s =>
  if s = "\x7b\"n\":42\x7d" then Except.ok (Json.obj [("n", Json.num 42)])
  else if s = "\x7b\"token\":\"abc123\"\x7d" then
    Except.ok (Json.obj [("token", Json.str "abc123")])
  else Except.error "invalid"

/-! ### The claims -/

/-- C1: the claim says a capture strips one pair of enclosing double
quotes only if present, so a captured number keeps its full textual form.
The code instead removes the first and last character of the stringified
value unconditionally (its own comment says "Remove Double Quotes" but
nothing checks for quotes): capturing field `n` of `{"n":42}` stores the
empty string, not `42`.  The string round-trip case of the claim does
hold (`{"token":"abc123"}` captures as `abc123`). -/
theorem c1_number_capture_truncated :
    Json.toString (Json.num 42) = "42" ∧
    (parse_json_response parseC1 "\x7b\"n\":42\x7d" [] endpointC1).captures.lookup "k" =
      some "" ∧
    (parse_json_response parseC1 "\x7b\"token\":\"abc123\"\x7d" [] endpointC1str).captures.lookup
      "sess" = some "abc123" :=
  ⟨rfl, rfl, rfl⟩

/-- C5: latency classification is a pure function of
`(response_time, low, mid)` with half-open intervals: `< low` is Green,
`[low, mid)` is Yellow, `≥ mid` is Red; in particular `low - 1` is Green
(when `low ≥ 1`), `low` is Yellow (when `low < mid`), `mid` is Red, and
the timeout component plays no role. -/
theorem c5_latency_classification (response_time low mid tmo tmo' : Nat) (h : low ≤ mid) :
    (classify response_time ⟨low, mid, tmo⟩ = Latency.green ↔ response_time < low) ∧
    (classify response_time ⟨low, mid, tmo⟩ = Latency.yellow ↔
      low ≤ response_time ∧ response_time < mid) ∧
    (classify response_time ⟨low, mid, tmo⟩ = Latency.red ↔ mid ≤ response_time) ∧
    classify response_time ⟨low, mid, tmo⟩ = classify response_time ⟨low, mid, tmo'⟩ ∧
    (1 ≤ low → classify (low - 1) ⟨low, mid, tmo⟩ = Latency.green) ∧
    (low < mid → classify low ⟨low, mid, tmo⟩ = Latency.yellow) ∧
    classify mid ⟨low, mid, tmo⟩ = Latency.red := by
  unfold classify
  dsimp only
  refine ⟨?_, ?_, ?_, rfl, ?_, ?_, ?_⟩
  · by_cases h1 : response_time < low <;> by_cases h2 : response_time < mid <;>
      simp [h1, h2]
  · by_cases h1 : response_time < low <;> by_cases h2 : response_time < mid <;>
      simp [h1, h2]
    omega
  · by_cases h1 : response_time < low <;> by_cases h2 : response_time < mid <;>
      simp [h1, h2] <;> omega
  · intro h1
    rw [if_pos (by omega)]
  · intro h1
    rw [if_neg (by omega), if_pos (by simpa using h1)]
  · rw [if_neg (by omega), if_neg (by omega)]

/-- C5 witness at `(low, mid, timeout) = (100, 500, 5000)`:
`99` is Green, `100` is Yellow, `500` is Red. -/
theorem c5_witness :
    classify 99 ⟨100, 500, 5000⟩ = Latency.green ∧
    classify 100 ⟨100, 500, 5000⟩ = Latency.yellow ∧
    classify 500 ⟨100, 500, 5000⟩ = Latency.red :=
  ⟨((c5_latency_classification 99 100 500 5000 5000 (by decide)).1).mpr (by decide),
   (c5_latency_classification 100 100 500 5000 5000 (by decide)).2.2.2.2.2.1 (by decide),
   ((c5_latency_classification 500 100 500 5000 5000 (by decide)).2.2.1).mpr (by decide)⟩

/-- C7: JSON parsing of a response body is attempted only when the buffer
is non-empty and starts with `{` — otherwise nothing is parsed, no parse
error can be raised and the store is untouched; when an attempted parse
fails, the failure is logged, all captures are skipped (store unchanged),
and the test's pass/fail outcome is unaffected: at the run level the
outcome of any executed test with a response is exactly the status
comparison, whatever the body was. -/
theorem c7_parse_gating :
    (∀ (parse : String → Except String Json) (captures : Store) (test : Endpoint),
      parse_json_response parse "" captures test = ⟨captures, false, false⟩) ∧
    (∀ (parse : String → Except String Json) (buf : String) (captures : Store) (test : Endpoint),
      buf.front ≠ '{' →
      parse_json_response parse buf captures test = ⟨captures, false, false⟩) ∧
    (∀ (parse : String → Except String Json) (buf : String) (captures : Store) (test : Endpoint)
      (e : String), buf.front = '{' → parse buf = Except.error e →
      parse_json_response parse buf captures test = ⟨captures, true, true⟩) ∧
    (∀ (parse : String → Except String Json) (oracle : Nat → TransportResult) (cfg : Config)
      (k : Nat) (r : TestRecord) (s t : Nat) (b : String),
      (execute_tests parse oracle cfg).records[k]? = some r →
      oracle r.index = TransportResult.ok s t b →
      (r.outcome = TestOutcome.passed ↔ s = r.test.status)) := by
  refine ⟨?_, ?_, ?_, ?_⟩
  · intro parse captures test
    rfl
  · intro parse buf captures test hfront
    unfold parse_json_response
    exact if_neg (fun hc => hfront hc.2)
  · intro parse buf captures test e hfront hparse
    have hne : buf ≠ "" := by
      intro he
      rw [he] at hfront
      exact absurd hfront (by decide)
    unfold parse_json_response
    rw [if_pos ⟨hne, hfront⟩, hparse]
  · intro parse oracle cfg k r s t b hr horacle
    rw [execute_tests_records] at hr
    obtain ⟨-, -, -, hok⟩ :=
      runFrom_record_facts parse oracle cfg.api_address cfg.tests 1 _ k r hr
    have hout := (hok s t b horacle).1
    by_cases hs : s = r.test.status <;> simp [hout, hs]

/-- C7 witness: a body starting with `{` that fails to parse marks a
logged parse failure with the store unchanged; a body not starting with
`{` is never parsed at all. -/
theorem c7_witness :
    parse_json_response parseNone "\x7bbad" [] endpointC1 = ⟨[], true, true⟩ ∧
    parse_json_response parseNone "ok" [] endpointC1 = ⟨[], false, false⟩ :=
  ⟨c7_parse_gating.2.2.1 parseNone "\x7bbad" [] endpointC1 "invalid" (by decide) rfl,
   c7_parse_gating.2.1 parseNone "ok" [] endpointC1 (by decide)⟩

/-- C8: method resolution is case-insensitive against the fixed verb set
(any string whose lowercasing is a verb name resolves to that verb, any
other string resolves to nothing), and an unresolvable method name makes
the whole run terminate at that test: no request record is produced for
it or for any later test, and no final pass count is reported. -/
theorem c8_method_resolution (parse : String → Except String Json)
    (oracle : Nat → TransportResult) (cfg : Config) :
    (∀ (s : String) (m : HttpMethod), strToLower s = m.toStr →
      validate_http_method s = some m) ∧
    (∀ s : String, (∀ m : HttpMethod, strToLower s ≠ m.toStr) →
      validate_http_method s = none) ∧
    (∀ i, (execute_tests parse oracle cfg).term = RunTermination.panickedMethod i →
      (execute_tests parse oracle cfg).finalReport = none ∧
      (∃ t, cfg.tests[i - 1]? = some t ∧ validate_http_method t.method = none) ∧
      ∀ r ∈ (execute_tests parse oracle cfg).records, r.index < i) := by
  refine ⟨?_, ?_, ?_⟩
  · intro s m hlow
    unfold validate_http_method
    rw [hlow]
    cases m <;> decide
  · intro s hall
    unfold validate_http_method
    apply List.find?_eq_none.mpr
    intro m hm hbeq
    exact hall m (eq_of_beq hbeq).symm
  · intro i hterm
    refine ⟨execute_tests_finalReport_not_completed parse oracle cfg (by rw [hterm]; simp), ?_, ?_⟩
    · rw [execute_tests_term] at hterm
      exact (runFrom_panicked parse oracle cfg.api_address cfg.tests 1 _ i hterm).2.1
    · intro r hr
      rw [execute_tests_term] at hterm
      rw [execute_tests_records] at hr
      exact (runFrom_panicked parse oracle cfg.api_address cfg.tests 1 _ i hterm).2.2 r hr

/-- C8 witness: `"GET"` and `"DeLeTe"` resolve case-insensitively; with
the method `"FOOBAR"` in the second of three tests, the run panics at
test 2, there is no final report, and only test 1 produced a record. -/
theorem c8_witness :
    validate_http_method "GET" = some HttpMethod.get ∧
    validate_http_method "DeLeTe" = some HttpMethod.delete ∧
    (execute_tests parseNone oracleOk200 cfgC8).finalReport = none ∧
    ∀ r ∈ (execute_tests parseNone oracleOk200 cfgC8).records, r.index < 2 :=
  ⟨(c8_method_resolution parseNone oracleOk200 cfgC8).1 "GET" HttpMethod.get (by decide),
   (c8_method_resolution parseNone oracleOk200 cfgC8).1 "DeLeTe" HttpMethod.delete (by decide),
   ((c8_method_resolution parseNone oracleOk200 cfgC8).2.2 2 (by decide)).1,
   ((c8_method_resolution parseNone oracleOk200 cfgC8).2.2 2 (by decide)).2.2⟩

/-- C2: a critical test that fails — status mismatch or transport
error — is the last test that executes (every record of the run has an
index no larger than its own), and the pass counter counts exactly the
`passed` records, so it was not incremented for that failing test. -/
theorem c2_critical_failure_stops_run (parse : String → Except String Json)
    (oracle : Nat → TransportResult) (cfg : Config) (r : TestRecord)
    (hr : r ∈ (execute_tests parse oracle cfg).records)
    (hcrit : r.test.critical.getD false = true)
    (hfail : r.outcome ≠ TestOutcome.passed) :
    (∀ r' ∈ (execute_tests parse oracle cfg).records, r'.index ≤ r.index) ∧
    (execute_tests parse oracle cfg).tests_passed =
      (execute_tests parse oracle cfg).records.countP
        (fun x => decide (x.outcome = TestOutcome.passed)) := by
  rw [execute_tests_records] at hr
  refine ⟨?_, ?_⟩
  · intro r' hr'
    rw [execute_tests_records] at hr'
    exact runFrom_critical_last parse oracle cfg.api_address cfg.tests 1 _ r hr hcrit hfail r' hr'
  · rw [execute_tests_passed, execute_tests_records]
    simpa using runFrom_passed_count parse oracle cfg.api_address cfg.tests 1
      ⟨cfg.time_boundaries.getD ⟨500, 1000, 10000⟩, [], 0⟩

/-- C2 witness: in a two-test suite whose first test is critical and hits
a transport error, that test's record is the only (hence maximal-index)
one and the counter stays at the number of passed records (zero). -/
theorem c2_witness :
    recC2 ∈ (execute_tests parseNone oracleErr cfgC2).records ∧
    recC2.test.critical.getD false = true ∧
    recC2.outcome ≠ TestOutcome.passed ∧
    (∀ r' ∈ (execute_tests parseNone oracleErr cfgC2).records, r'.index ≤ recC2.index) ∧
    (execute_tests parseNone oracleErr cfgC2).tests_passed =
      (execute_tests parseNone oracleErr cfgC2).records.countP
        (fun x => decide (x.outcome = TestOutcome.passed)) :=
  ⟨by decide, by decide, by decide,
    c2_critical_failure_stops_run parseNone oracleErr cfgC2 recC2 (by decide) (by decide)
      (by decide)⟩

/-- C3 counterexample: a two-test suite whose first (critical) test fails
by transport error aborts the run and prints NO final report line at all
(`finalReport = none`), so the claim that every suite run's final report
line states `passed` out of `tests.len()` is false for aborted runs. -/
theorem c3_counterexample_no_report_on_abort :
    cfgC2.tests.length = 2 ∧
    (execute_tests parseNone oracleErr cfgC2).term = RunTermination.abortedCritical 1 ∧
    (execute_tests parseNone oracleErr cfgC2).finalReport = none :=
  ⟨rfl, rfl, rfl⟩

/-- C3 (amended): whenever the final report line is printed — exactly on
the runs that complete without a critical abort or method panic — it
states `passed` out of `tests.len()`, the pre-computed suite length, and
completion produced one record per declared test (the denominator never
shrinks for non-critical failures); an aborted run prints no final report
line at all. -/
theorem c3_final_report_total (parse : String → Except String Json)
    (oracle : Nat → TransportResult) (cfg : Config) :
    ((execute_tests parse oracle cfg).term = RunTermination.completed →
      (execute_tests parse oracle cfg).finalReport =
        some ((execute_tests parse oracle cfg).tests_passed, cfg.tests.length) ∧
      (execute_tests parse oracle cfg).records.length = cfg.tests.length) ∧
    ((execute_tests parse oracle cfg).term ≠ RunTermination.completed →
      (execute_tests parse oracle cfg).finalReport = none) := by
  refine ⟨?_, execute_tests_finalReport_not_completed parse oracle cfg⟩
  intro h
  refine ⟨execute_tests_finalReport_completed parse oracle cfg h, ?_⟩
  rw [execute_tests_records]
  rw [execute_tests_term] at h
  exact runFrom_completed_length parse oracle cfg.api_address cfg.tests 1 _ h

/-- C3 amended witness: the three-test demo suite completes, reporting
`3 out of 3` with one record per test. -/
theorem c3_witness :
    (execute_tests parseDemo oracleDemo cfgDemo).finalReport =
      some ((execute_tests parseDemo oracleDemo cfgDemo).tests_passed, cfgDemo.tests.length) ∧
    (execute_tests parseDemo oracleDemo cfgDemo).records.length = cfgDemo.tests.length :=
  (c3_final_report_total parseDemo oracleDemo cfgDemo).1 (by decide)

/-- C4: test k's effective time boundaries follow the spec recurrence
`test.time_boundaries ?? running_default` with overrides becoming the new
carry-forward default, and the third component of those effective
boundaries is already the timeout of test k's own request (the update
happens before the request is sent). -/
theorem c4_time_boundaries_carry_forward (parse : String → Except String Json)
    (oracle : Nat → TransportResult) (cfg : Config) (k : Nat) (r : TestRecord)
    (hr : (execute_tests parse oracle cfg).records[k]? = some r) :
    (spec_effective_time_boundaries (cfg.time_boundaries.getD ⟨500, 1000, 10000⟩)
        cfg.tests)[k]? = some r.boundaries ∧
    r.request.timeout = r.boundaries.timeout := by
  rw [execute_tests_records] at hr
  refine ⟨runFrom_boundaries parse oracle cfg.api_address cfg.tests 1 _ k r hr, ?_⟩
  obtain ⟨-, ⟨m, -, hreq⟩, -, -⟩ :=
    runFrom_record_facts parse oracle cfg.api_address cfg.tests 1 _ k r hr
  rw [hreq]
  rfl

/-- C4 witness: in the demo suite, test 2 overrides the boundaries to
`(100, 200, 300)` and test 3 declares none; test 3's effective boundaries
are the carried-forward override and its request timeout is its third
component. -/
theorem c4_witness :
    (spec_effective_time_boundaries (cfgDemo.time_boundaries.getD ⟨500, 1000, 10000⟩)
        cfgDemo.tests)[2]? = some recDemo3.boundaries ∧
    recDemo3.request.timeout = recDemo3.boundaries.timeout :=
  c4_time_boundaries_carry_forward parseDemo oracleDemo cfgDemo 2 recDemo3 (by decide)

/-- C6: for a test whose `bearer_token` names a variable, the request's
`Authorization` header is exactly `Bearer <value>` when the store holds a
value under that variable at the time the test runs, and is omitted
entirely (no header at all, never `"Bearer "` with an empty value) when
the store has no such key. -/
theorem c6_bearer_injection (parse : String → Except String Json)
    (oracle : Nat → TransportResult) (cfg : Config) (k : Nat) (r : TestRecord) (key : String)
    (hr : (execute_tests parse oracle cfg).records[k]? = some r)
    (hkey : r.test.bearer_token = some key) :
    r.request.authorization = (r.storeBefore.lookup key).map (fun v => "Bearer " ++ v) ∧
    (∀ v, r.storeBefore.lookup key = some v →
      r.request.authorization = some ("Bearer " ++ v)) ∧
    (r.storeBefore.lookup key = none → r.request.authorization = none) := by
  rw [execute_tests_records] at hr
  obtain ⟨-, ⟨m, -, hreq⟩, -, -⟩ :=
    runFrom_record_facts parse oracle cfg.api_address cfg.tests 1 _ k r hr
  have hauth : r.request.authorization =
      (r.storeBefore.lookup key).map (fun v => "Bearer " ++ v) := by
    rw [hreq, hkey]
    rfl
  exact ⟨hauth, fun v hv => by rw [hauth, hv]; rfl, fun hv => by rw [hauth, hv]; rfl⟩

/-- C6 witness: test 1 of the demo suite captures `uid -> x1` from
`{"id":"x1"}`; test 2 declares `bearer_token: uid` and its request
carries `Authorization: Bearer x1`. -/
theorem c6_witness :
    (execute_tests parseDemo oracleDemo cfgDemo).records[1]? = some recDemo2 ∧
    recDemo2.request.authorization = some ("Bearer " ++ "x1") :=
  ⟨by decide,
    (c6_bearer_injection parseDemo oracleDemo cfgDemo 1 recDemo2 "uid" (by decide)
      (by decide)).2.1 "x1" (by decide)⟩

/-- C9: the request body is `buildBody json_body`, which serializes a
present `json_body` as the flat JSON object of its string pairs (the
empty map giving `"{}"`) and an absent one as the empty string, and the
`Content-Type: application/json` header is set exactly when the body is
non-empty. -/
theorem c9_body_and_content_type (parse : String → Except String Json)
    (oracle : Nat → TransportResult) (cfg : Config) (k : Nat) (r : TestRecord)
    (hr : (execute_tests parse oracle cfg).records[k]? = some r) :
    r.request.body = buildBody r.test.json_body ∧
    (∀ m, buildBody (some m) = spec_flat_json_object m) ∧
    buildBody none = "" ∧
    spec_flat_json_object [] = "\x7b\x7d" ∧
    (r.request.contentType = true ↔ r.request.body ≠ "") := by
  rw [execute_tests_records] at hr
  obtain ⟨-, ⟨m, -, hreq⟩, -, -⟩ :=
    runFrom_record_facts parse oracle cfg.api_address cfg.tests 1 _ k r hr
  refine ⟨by rw [hreq]; rfl, buildBody_some, buildBody_none, rfl, ?_⟩
  rw [hreq]
  show decide (0 < (buildBody r.test.json_body).length) = true ↔
    buildBody r.test.json_body ≠ ""
  simp only [decide_eq_true_eq]
  exact str_length_pos_iff _

/-- C9 witness: test 2 of the demo suite has `json_body: {a: b}`; its
request body is `{"a":"b"}` and the Content-Type header is set. -/
theorem c9_witness :
    recDemo2.request.body = "\x7b\"a\":\"b\"\x7d" ∧ recDemo2.request.contentType = true :=
  ⟨((c9_body_and_content_type parseDemo oracleDemo cfgDemo 1 recDemo2 (by decide)).1).trans
      (by decide),
   ((c9_body_and_content_type parseDemo oracleDemo cfgDemo 1 recDemo2
      (by decide)).2.2.2.2).mpr (by decide)⟩

/-- C10: a test without `bearer_token` (resp. `session_id`) still looks
the token up under the empty-string key, so a store entry for `""` gets
injected as `Authorization: Bearer <value>` (resp.
`Cookie: connect.sid=<value>`) even though the test requested no token;
the headers are omitted only when the store has no `""` entry. -/
theorem c10_empty_key_lookup (parse : String → Except String Json)
    (oracle : Nat → TransportResult) (cfg : Config) (k : Nat) (r : TestRecord)
    (hr : (execute_tests parse oracle cfg).records[k]? = some r) :
    (r.test.bearer_token = none →
      r.request.authorization = (r.storeBefore.lookup "").map (fun v => "Bearer " ++ v)) ∧
    (r.test.session_id = none →
      r.request.cookie = (r.storeBefore.lookup "").map (fun v => "connect.sid=" ++ v)) := by
  rw [execute_tests_records] at hr
  obtain ⟨-, ⟨m, -, hreq⟩, -, -⟩ :=
    runFrom_record_facts parse oracle cfg.api_address cfg.tests 1 _ k r hr
  refine ⟨fun hb => ?_, fun hs => ?_⟩
  · rw [hreq, hb]
    rfl
  · rw [hreq, hs]
    rfl

/-- C10 witness: test 1 captures under the empty-string key (`"" -> x1`);
test 2 declares neither `bearer_token` nor `session_id`, yet its request
carries both `Authorization: Bearer x1` and `Cookie: connect.sid=x1`. -/
theorem c10_witness :
    (execute_tests parseDemo oracleDemo cfgC10).records[1]? = some recC10 ∧
    recC10.test.bearer_token = none ∧
    recC10.request.authorization = some ("Bearer " ++ "x1") ∧
    recC10.request.cookie = some ("connect.sid=" ++ "x1") :=
  ⟨by decide, by decide,
    (((c10_empty_key_lookup parseDemo oracleDemo cfgC10 1 recC10 (by decide)).1)
      (by decide)).trans (by decide),
    (((c10_empty_key_lookup parseDemo oracleDemo cfgC10 1 recC10 (by decide)).2)
      (by decide)).trans (by decide)⟩

end RustRestTest
